import Mathlib

/- Verification of the replay-management core of RivalsofAetherReplayManager
   against its design document.  The Python sources, management/utilites.py
   and management/replaymanager.py, are shallowly embedded below: Python
   strings are Lean strings over the ASCII fragment, filesystem state is
   passed around explicitly, and a Python exception is an Except value
   returned next to the state as mutated up to the raise. -/

namespace RoaMgr

/-! ## Embedding of management/utilites.py -/

/-- Python str.split with a single-character separator, modelled on the
character list of the string.  Matches CPython semantics: the empty string
splits into a list holding one empty piece, and a separator at either end
produces an empty piece there. -/
def splitOnChar (sep : Char) : List Char → List (List Char)
  | [] => [[]]
  | c :: rest =>
    let r := splitOnChar sep rest
    if c = sep then [] :: r else (c :: r.headD []) :: r.tail

/-- Python sep.join applied to a list of strings, on character lists. -/
def joinWith (sep : List Char) : List (List Char) → List Char
  | [] => []
  | [x] => x
  | x :: y :: t => x ++ sep ++ joinWith sep (y :: t)

/-- Python str.isdigit on the ASCII fragment: the string is nonempty and
every character is a decimal digit. -/
def py_isdigit (cs : List Char) : Bool :=
  !cs.isEmpty && cs.all (fun c => c.isDigit)

/-- Python int() applied to a string of decimal digits. -/
def py_int (cs : List Char) : Nat :=
  cs.foldl (fun n c => n * 10 + (c.toNat - 48)) 0

/-- Decimal printing helper for py_str_nat, structurally recursive on a fuel
argument so that it evaluates by kernel reduction.  A fuel of n + 1 always
covers every digit of n, since n / 10 strictly decreases. -/
def py_str_nat_aux : Nat → Nat → List Char
  | 0, _ => []
  | fuel + 1, n =>
    if n < 10 then [Char.ofNat (48 + n)]
    else py_str_nat_aux fuel (n / 10) ++ [Char.ofNat (48 + n % 10)]

/-- Python str() applied to a natural number: its decimal digits, without
leading zeros. -/
def py_str_nat (n : Nat) : List Char :=
  py_str_nat_aux (n + 1) n

/-- The component padding used by version_to_dname: a one-character component
gains a leading zero, longer components are kept as written. -/
def pad_component (c : List Char) : List Char :=
  if c.length > 1 then c else '0' :: c

/-- utilites.version_to_dname: convert x.x.x to xx_xx_xx.  Splits on the dot,
keeps exactly the components Python str.isdigit accepts, left-pads
one-character components with a zero, and joins with underscores. -/
def version_to_dname (s : String) : String :=
  String.mk (joinWith ['_']
    (((splitOnChar '.' s.data).filter py_isdigit).map pad_component))

/-- utilites.dname_to_version: convert xx_xx_xx to x.x.x.  Splits on the
underscore, keeps the numeric components, passes each through int() and
str(), and joins with dots. -/
def dname_to_version (s : String) : String :=
  String.mk (joinWith ['.']
    (((splitOnChar '_' s.data).filter py_isdigit).map
      (fun c => py_str_nat (py_int c))))

/-! ### Basic facts about the split and join models -/

theorem splitOnChar_ne_nil (sep : Char) (cs : List Char) :
    splitOnChar sep cs ≠ [] := by
  induction cs with
  | nil => simp [splitOnChar]
  | cons c rest ih =>
    simp only [splitOnChar]
    split <;> simp

theorem splitOnChar_no_sep (sep : Char) (cs : List Char) (h : sep ∉ cs) :
    splitOnChar sep cs = [cs] := by
  induction cs with
  | nil => rfl
  | cons c rest ih =>
    simp only [List.mem_cons, not_or] at h
    simp only [splitOnChar, ih h.2]
    rw [if_neg (fun hc => h.1 hc.symm)]
    rfl

theorem splitOnChar_append_sep (sep : Char) (x cs : List Char) (hx : sep ∉ x) :
    splitOnChar sep (x ++ sep :: cs) = x :: splitOnChar sep cs := by
  induction x with
  | nil => simp [splitOnChar]
  | cons c x2 ih =>
    simp only [List.mem_cons, not_or] at hx
    simp only [List.cons_append, splitOnChar, List.append_eq, ih hx.2]
    rw [if_neg (fun hc => hx.1 hc.symm)]
    rfl

theorem joinWith_cons₂ (sep : List Char) (x y : List Char) (t : List (List Char)) :
    joinWith sep (x :: y :: t) = x ++ sep ++ joinWith sep (y :: t) := rfl

theorem splitOnChar_joinWith (sep : Char) (L : List (List Char)) (hL : L ≠ [])
    (hd : ∀ c ∈ L, sep ∉ c) :
    splitOnChar sep (joinWith [sep] L) = L := by
  induction L with
  | nil => exact absurd rfl hL
  | cons x t ih =>
    cases t with
    | nil => exact splitOnChar_no_sep sep x (hd x (by simp))
    | cons y t2 =>
      have hx : sep ∉ x := hd x (by simp)
      have hj : joinWith [sep] (x :: y :: t2)
          = x ++ sep :: joinWith [sep] (y :: t2) := by
        rw [joinWith_cons₂]
        simp
      rw [hj, splitOnChar_append_sep sep x _ hx,
        ih (by simp) (fun c hc => hd c (List.mem_cons_of_mem _ hc))]

/-! ### Facts about digits, int() and str() -/

theorem char_digit_toNat (c : Char) (h : c.isDigit = true) :
    48 ≤ c.toNat ∧ c.toNat ≤ 57 := by
  simp only [Char.isDigit, decide_eq_true_eq, Bool.and_eq_true] at h
  obtain ⟨h1, h2⟩ := h
  exact ⟨h1, h2⟩

theorem py_str_nat_aux_small (fuel n : Nat) (hf : 0 < fuel) (hn : n < 10) :
    py_str_nat_aux fuel n = [Char.ofNat (48 + n)] := by
  cases fuel with
  | zero => exact absurd hf (by omega)
  | succ f => simp [py_str_nat_aux, hn]

theorem py_str_nat_small (n : Nat) (hn : n < 10) :
    py_str_nat n = [Char.ofNat (48 + n)] :=
  py_str_nat_aux_small (n + 1) n (by omega) hn

theorem py_str_nat_two_digits (n : Nat) (h10 : 10 ≤ n) (h100 : n < 100) :
    py_str_nat n = [Char.ofNat (48 + n / 10), Char.ofNat (48 + n % 10)] := by
  have hn1 : n + 1 = n + 1 := rfl
  rw [py_str_nat]
  cases hn : n + 1 with
  | zero => omega
  | succ m =>
    have hm : m = n := by omega
    subst hm
    simp only [py_str_nat_aux]
    rw [if_neg (by omega)]
    rw [py_str_nat_aux_small m (m / 10) (by omega) (by omega)]
    rfl

/-! ## Embedding of the data model of management/replaymanager.py -/

/-- The ReplayFile wrapper of management/replaymanager.py, restricted to the
attributes the collection logic reads: the base filename, used as the replay
id, and the absolute source path. -/
structure ReplayFile where
  name : String
  path : String
deriving DecidableEq

/-- The slice of the os module that the collection logic consults: whether a
path is a file, whether it is a directory, and the entries a directory
lists, in listing order. -/
structure OsFs where
  isfile : String → Bool
  isdir : String → Bool
  listdir : String → List String

/-- os.path.join for an absolute left part and a relative right part. -/
def pathJoin (a b : String) : String := a ++ "/" ++ b

/-- Python str.endswith, modelled as a suffix test on character lists. -/
def py_endswith (s suffix : String) : Bool :=
  suffix.data.isSuffixOf s.data

/-- utilites.listdir_replays_only: the entries of a directory that end in
.roa and are files, in listing order. -/
def listdir_replays_only (fs : OsFs) (path : String) : List String :=
  (fs.listdir path).filter
    (fun d => py_endswith d ".roa" && fs.isfile (pathJoin path d))

/-- The ReplayCollection state: the two artifact roots stored at
construction, the full discovered record sequence, and the unvisited
subsequence.  The name and path attributes, which no claim mentions, are
omitted. -/
structure ReplayCollection where
  frames_root_path : String
  labels_root_path : String
  replays : List ReplayFile
  replays_unvisited : List ReplayFile
deriving DecidableEq

/-- ReplayCollection.is_replay_collected: four early returns of False, one
for each missing or empty artifact directory, and True at the end. -/
def is_replay_collected (c : ReplayCollection) (fs : OsFs)
    (replay : ReplayFile) : Bool :=
  let replay_frames_path := pathJoin c.frames_root_path replay.name
  let replay_labels_path := pathJoin c.labels_root_path replay.name
  if !fs.isdir replay_frames_path then false
  else if !fs.isdir replay_labels_path then false
  else if (fs.listdir replay_frames_path).isEmpty then false
  else if (fs.listdir replay_labels_path).isEmpty then false
  else true

/-- ReplayCollection.reset_unvisited: recompute the unvisited subsequence as
the records of the full sequence that are not collected. -/
def reset_unvisited (fs : OsFs) (c : ReplayCollection) : ReplayCollection :=
  { c with replays_unvisited :=
      c.replays.filter (fun r => !is_replay_collected c fs r) }

/-- ReplayCollection.pop_unvisited: None on an empty unvisited list,
otherwise the head of the list is removed and returned. -/
def pop_unvisited (c : ReplayCollection) :
    Option ReplayFile × ReplayCollection :=
  match c.replays_unvisited with
  | [] => (none, c)
  | r :: rest => (some r, { c with replays_unvisited := rest })

/-- The count property of a ReplayCollection. -/
def ReplayCollection.count (c : ReplayCollection) : Nat := c.replays.length

/-- The count_unvisited property of a ReplayCollection. -/
def ReplayCollection.count_unvisited (c : ReplayCollection) : Nat :=
  c.replays_unvisited.length

/-- ReplayCollection.__init__: enumerate the .roa files of the collection
directory in listing order, wrap each as a ReplayFile whose id is the base
filename and whose path joins the collection path, then compute the
unvisited subsequence with reset_unvisited. -/
def ReplayCollection.make (fs : OsFs)
    (collection_path frames_root_path labels_root_path : String) :
    ReplayCollection :=
  reset_unvisited fs
    { frames_root_path := frames_root_path
      labels_root_path := labels_root_path
      replays := (listdir_replays_only fs collection_path).map
        (fun n => { name := n, path := pathJoin collection_path n })
      replays_unvisited := [] }

/-- The path attributes a ReplayManager establishes in __init__. -/
structure ReplayManagerCfg where
  replays_path : String
  destination_root_path : String
  frames_root_path : String
  labels_root_path : String
deriving DecidableEq

/-- ReplayManager.__init__ path derivation, replaymanager.py lines 252 to
272: the destination root defaults to the replays path, and the frames and
labels roots are its fixed subdirectories named frames and labels.  The
optional folder-creation and backup side effects touch no path attribute
and are left out. -/
def ReplayManager.init (replays_path : String)
    (destination_root_path : Option String) : ReplayManagerCfg :=
  let dest := match destination_root_path with
    | some d => d
    | none => replays_path
  { replays_path := replays_path
    destination_root_path := dest
    frames_root_path := pathJoin dest "frames"
    labels_root_path := pathJoin dest "labels" }

/-- ReplayManager.load_collection with an explicit collection path,
replaymanager.py lines 305 to 309: the ReplayCollection is constructed with
the frames root passed for both root arguments, exactly as written in the
source. -/
def load_collection (mgr : ReplayManagerCfg) (fs : OsFs)
    (collection_path : String) : ReplayCollection :=
  ReplayCollection.make fs collection_path
    mgr.frames_root_path mgr.frames_root_path

/-- Unvisited subsequences produced by collection construction carry no
duplicate records when the directory listing has no duplicate names. -/
theorem make_unvisited_nodup (fs : OsFs)
    (collection_path frames_root_path labels_root_path : String)
    (h : (fs.listdir collection_path).Nodup) :
    (ReplayCollection.make fs collection_path frames_root_path
      labels_root_path).replays_unvisited.Nodup := by
  simp only [ReplayCollection.make, reset_unvisited, listdir_replays_only]
  exact List.Nodup.filter _
    (List.Nodup.map (fun a b hab => congrArg ReplayFile.name hab)
      (List.Nodup.filter _ h))

/-! ## Claim C4 -/

/-- Claim C4: a replay is collected exactly when both its artifact
directories, the frames root joined with the id and the labels root joined
with the id, exist as directories and each lists at least one entry; in
particular a record both of whose artifact directories exist but are empty
is not collected. -/
theorem is_replay_collected_iff (c : ReplayCollection) (fs : OsFs)
    (r : ReplayFile) :
    is_replay_collected c fs r = true ↔
      (fs.isdir (pathJoin c.frames_root_path r.name) = true ∧
       fs.isdir (pathJoin c.labels_root_path r.name) = true ∧
       fs.listdir (pathJoin c.frames_root_path r.name) ≠ [] ∧
       fs.listdir (pathJoin c.labels_root_path r.name) ≠ []) := by
  by_cases hf : fs.isdir (pathJoin c.frames_root_path r.name) = true <;>
  by_cases hl : fs.isdir (pathJoin c.labels_root_path r.name) = true <;>
  by_cases ef : fs.listdir (pathJoin c.frames_root_path r.name) = [] <;>
  by_cases el : fs.listdir (pathJoin c.labels_root_path r.name) = [] <;>
  simp [is_replay_collected, hf, hl, ef, el, List.isEmpty_iff]

/-- Fixture for the witness of is_replay_collected_iff: both artifact
directories of a.roa exist and are nonempty. -/
def c4_fs : OsFs :=
  { isfile := fun _ => false
    isdir := fun p => p == "dest/frames/a.roa" || p == "dest/labels/a.roa"
    listdir := fun p =>
      if p == "dest/frames/a.roa" then ["0.npy"]
      else if p == "dest/labels/a.roa" then ["roa_0.npy"] else [] }

/-- Fixture collection for the witness of is_replay_collected_iff. -/
def c4_collection : ReplayCollection :=
  { frames_root_path := "dest/frames"
    labels_root_path := "dest/labels"
    replays := []
    replays_unvisited := [] }

/-- Witness for is_replay_collected_iff at a concrete record and state. -/
theorem is_replay_collected_iff_witness :
    is_replay_collected c4_collection c4_fs ⟨"a.roa", "coll/a.roa"⟩ = true :=
  (is_replay_collected_iff c4_collection c4_fs ⟨"a.roa", "coll/a.roa"⟩).mpr
    ⟨rfl, rfl, by decide, by decide⟩

/-! ## Claim C5 -/

/-- Claim C5: when the unvisited subsequence is nonempty, pop_unvisited
removes and returns its first record, the unvisited count drops by exactly
one, and a second pop before any reset cannot return the same record; when
the subsequence is empty, pop_unvisited returns none with the collection
unchanged, in particular it never fails.  The no-duplicate hypothesis holds
for every constructed collection by make_unvisited_nodup. -/
theorem pop_unvisited_fifo (c : ReplayCollection)
    (h : c.replays_unvisited.Nodup) :
    (c.replays_unvisited = [] → pop_unvisited c = (none, c)) ∧
    (∀ r rest, c.replays_unvisited = r :: rest →
      (pop_unvisited c).1 = some r ∧
      (pop_unvisited c).2.replays_unvisited = rest ∧
      (pop_unvisited c).2.count_unvisited + 1 = c.count_unvisited ∧
      (pop_unvisited (pop_unvisited c).2).1 ≠ some r) := by
  constructor
  · intro he
    simp [pop_unvisited, he]
  · intro r rest he
    have h2 : pop_unvisited c = (some r, { c with replays_unvisited := rest }) := by
      simp [pop_unvisited, he]
    rw [h2]
    refine ⟨rfl, rfl, ?_, ?_⟩
    · simp [ReplayCollection.count_unvisited, he]
    · cases rest with
      | nil => simp [pop_unvisited]
      | cons r2 t =>
        have hne : ¬ r = r2 := by
          rw [he] at h
          intro hrr
          subst hrr
          exact (List.nodup_cons.mp h).1 (List.mem_cons_self r t)
        simp only [pop_unvisited, ne_eq, Option.some.injEq]
        exact fun hrr => hne hrr.symm

/-- Fixture collection for the witness of pop_unvisited_fifo. -/
def c5_collection : ReplayCollection :=
  { frames_root_path := "dest/frames"
    labels_root_path := "dest/labels"
    replays := [⟨"a.roa", "coll/a.roa"⟩, ⟨"b.roa", "coll/b.roa"⟩]
    replays_unvisited := [⟨"a.roa", "coll/a.roa"⟩, ⟨"b.roa", "coll/b.roa"⟩] }

/-- Witness for pop_unvisited_fifo at a concrete two-record collection. -/
theorem pop_unvisited_fifo_witness :
    (pop_unvisited c5_collection).1 = some ⟨"a.roa", "coll/a.roa"⟩ ∧
    (pop_unvisited c5_collection).2.count_unvisited + 1
      = c5_collection.count_unvisited ∧
    (pop_unvisited (pop_unvisited c5_collection).2).1
      ≠ some ⟨"a.roa", "coll/a.roa"⟩ := by
  have h := pop_unvisited_fifo c5_collection (by decide)
  obtain ⟨h1, h2, h3, h4⟩ :=
    h.2 ⟨"a.roa", "coll/a.roa"⟩ [⟨"b.roa", "coll/b.roa"⟩] rfl
  exact ⟨h1, h3, h4⟩

/-! ## Claim C10 -/

/-- Claim C10: pop_unvisited leaves the full discovered record sequence and
its count unchanged, shrinking only the unvisited subsequence, and a popped
record whose artifact directories are still absent or empty is restored to
the unvisited subsequence by a later reset_unvisited. -/
theorem pop_unvisited_preserves_replays (c : ReplayCollection) (fs : OsFs)
    (h : ∀ r ∈ c.replays_unvisited, r ∈ c.replays) :
    (pop_unvisited c).2.replays = c.replays ∧
    (pop_unvisited c).2.count = c.count ∧
    (∀ r, (pop_unvisited c).1 = some r →
      is_replay_collected (pop_unvisited c).2 fs r = false →
      r ∈ (reset_unvisited fs (pop_unvisited c).2).replays_unvisited) := by
  cases hu : c.replays_unvisited with
  | nil => simp [pop_unvisited, hu]
  | cons r0 rest =>
    have hp : pop_unvisited c = (some r0, { c with replays_unvisited := rest }) := by
      simp [pop_unvisited, hu]
    rw [hp]
    refine ⟨rfl, rfl, ?_⟩
    intro r hr hcol
    have hr0 : r0 = r := by simpa using hr
    subst hr0
    have hmem : r0 ∈ c.replays :=
      h r0 (by rw [hu]; exact List.mem_cons_self r0 rest)
    simp only [reset_unvisited, List.mem_filter]
    exact ⟨hmem, by simp [hcol]⟩

/-- Fixture filesystem for the witness of pop_unvisited_preserves_replays:
no artifact directory exists at all. -/
def c10_fs : OsFs :=
  { isfile := fun _ => false
    isdir := fun _ => false
    listdir := fun _ => [] }

/-- Fixture collection for the witness of pop_unvisited_preserves_replays. -/
def c10_collection : ReplayCollection :=
  { frames_root_path := "dest/frames"
    labels_root_path := "dest/labels"
    replays := [⟨"a.roa", "coll/a.roa"⟩]
    replays_unvisited := [⟨"a.roa", "coll/a.roa"⟩] }

/-- Witness for pop_unvisited_preserves_replays at a concrete collection. -/
theorem pop_unvisited_preserves_replays_witness :
    (pop_unvisited c10_collection).2.replays = c10_collection.replays ∧
    (⟨"a.roa", "coll/a.roa"⟩ : ReplayFile)
      ∈ (reset_unvisited c10_fs
          (pop_unvisited c10_collection).2).replays_unvisited := by
  have h := pop_unvisited_preserves_replays c10_collection c10_fs (by decide)
  exact ⟨h.1, h.2.2 ⟨"a.roa", "coll/a.roa"⟩ rfl rfl⟩

/-! ## Claim C3 -/

/-- Fixture filesystem for claim C3: the collection directory coll holds
a.roa, the frames artifact directory of a.roa exists and is nonempty, and
its labels artifact directory does not exist. -/
def c3_fs : OsFs :=
  { isfile := fun p => p == "coll/a.roa"
    isdir := fun p => p == "dest/frames/a.roa"
    listdir := fun p =>
      if p == "coll" then ["a.roa"]
      else if p == "dest/frames/a.roa" then ["0.npy"] else [] }

/-- Claim C3 as the source refutes it: load_collection passes the frames
root for both root arguments of the ReplayCollection, so every loaded
collection stores the frames subdirectory of the destination root as its
labels root and probes label artifacts under destinationRoot/frames rather
than destinationRoot/labels.  Concretely, a replay whose frames directory
alone is nonempty while its labels directory is absent is classified
collected and dropped from the unvisited subsequence. -/
theorem load_collection_probes_frames_for_labels :
    (∀ rp dest fs cp,
      (load_collection (ReplayManager.init rp (some dest)) fs cp).labels_root_path
        = pathJoin dest "frames") ∧
    c3_fs.isdir (pathJoin (pathJoin "dest" "labels") "a.roa") = false ∧
    (load_collection (ReplayManager.init "replays" (some "dest")) c3_fs "coll").replays
      = [⟨"a.roa", "coll/a.roa"⟩] ∧
    (load_collection (ReplayManager.init "replays" (some "dest")) c3_fs "coll").replays_unvisited
      = [] := by
  exact ⟨fun rp dest fs cp => rfl, rfl, by decide, by decide⟩

/-! ## Helper lemmas for the version codec claims -/

theorem data_mk (cs : List Char) : (String.mk cs).data = cs := rfl

theorem not_mem_of_py_isdigit (c : List Char) (hc : py_isdigit c = true)
    (x : Char) (hx : ¬ x.isDigit = true) : x ∉ c := by
  intro hmem
  simp only [py_isdigit, Bool.and_eq_true, List.all_eq_true] at hc
  exact hx (hc.2 x hmem)

theorem char_toNat_inj (c d : Char) (h : c.toNat = d.toNat) : c = d := by
  have h2 := congrArg Char.ofNat h
  rwa [Char.ofNat_toNat, Char.ofNat_toNat] at h2

theorem pad_component_isdigit (c : List Char) (hc : py_isdigit c = true) :
    py_isdigit (pad_component c) = true := by
  simp only [py_isdigit, Bool.and_eq_true, List.all_eq_true] at hc ⊢
  unfold pad_component
  split
  · exact hc
  · refine ⟨by simp, ?_⟩
    intro x hx
    rcases List.mem_cons.mp hx with h0 | h1
    · subst h0; decide
    · exact hc.2 x h1

/-- The normalization hypothesis of claim C9 read off from section 4.1 of
the design document: a component is a one- or two-digit numeric, with no
leading zero in the two-digit case. -/
def roundTripSafe (c : List Char) : Bool :=
  py_isdigit c &&
    (c.length == 1 || (c.length == 2 && c.headD '0' != '0'))

theorem roundTripSafe_isdigit (c : List Char)
    (h : roundTripSafe c = true) : py_isdigit c = true := by
  simp only [roundTripSafe, Bool.and_eq_true] at h
  exact h.1

theorem round_trip_component (c : List Char) (h : roundTripSafe c = true) :
    py_str_nat (py_int (pad_component c)) = c := by
  simp only [roundTripSafe, Bool.and_eq_true, Bool.or_eq_true,
    beq_iff_eq, bne_iff_ne] at h
  obtain ⟨hdig, hlen⟩ := h
  simp only [py_isdigit, Bool.and_eq_true, List.all_eq_true] at hdig
  cases c with
  | nil => simp at hdig
  | cons d1 t =>
    cases t with
    | nil =>
      have hd1 : d1.isDigit = true := hdig.2 d1 (by simp)
      have hb := char_digit_toNat d1 hd1
      have hpad : pad_component [d1] = ['0', d1] := rfl
      rw [hpad]
      have hint : py_int ['0', d1] = d1.toNat - 48 := by
        simp [py_int]
      rw [hint, py_str_nat_small _ (by omega)]
      have he : 48 + (d1.toNat - 48) = d1.toNat := by omega
      rw [he, Char.ofNat_toNat]
    | cons d2 t2 =>
      cases t2 with
      | nil =>
        have hd1 : d1.isDigit = true := hdig.2 d1 (by simp)
        have hd2 : d2.isDigit = true := hdig.2 d2 (by simp)
        have hb1 := char_digit_toNat d1 hd1
        have hb2 := char_digit_toNat d2 hd2
        have hne : d1.toNat ≠ 48 := by
          intro he
          rcases hlen with h1 | h2
          · simp at h1
          · exact h2.2 (char_toNat_inj d1 '0' he)
        have hpad : pad_component [d1, d2] = [d1, d2] := rfl
        rw [hpad]
        have hint : py_int [d1, d2]
            = (d1.toNat - 48) * 10 + (d2.toNat - 48) := by
          simp [py_int]
        rw [hint, py_str_nat_two_digits _ (by omega) (by omega)]
        have hdiv : ((d1.toNat - 48) * 10 + (d2.toNat - 48)) / 10
            = d1.toNat - 48 := by omega
        have hmod : ((d1.toNat - 48) * 10 + (d2.toNat - 48)) % 10
            = d2.toNat - 48 := by omega
        rw [hdiv, hmod]
        have he1 : 48 + (d1.toNat - 48) = d1.toNat := by omega
        have he2 : 48 + (d2.toNat - 48) = d2.toNat := by omega
        rw [he1, he2, Char.ofNat_toNat, Char.ofNat_toNat]
      | cons d3 t3 =>
        exfalso
        rcases hlen with h1 | h2
        · simp at h1
        · have h3 := h2.1
          simp at h3

/-! ## Claim C8 -/

/-- The error kind the design document names for the version codec. -/
inductive VersionError where
  | invalidVersionFormat
deriving DecidableEq

/-- Modelled from the spec, section 4.1, which is where the failure behavior
of claim C8 is stated: versionToToken splits on the dot, requires every
component to be numeric, left-pads single-digit components and joins with
underscores, and fails with InvalidVersionFormat if any component is
non-numeric or no component remains after filtering.  The source function
version_to_dname is compared against this reading. -/
def versionToToken_spec (s : String) : Except VersionError String :=
  let comps := splitOnChar '.' s.data
  if comps.any (fun c => !py_isdigit c) then
    Except.error VersionError.invalidVersionFormat
  else if (comps.filter py_isdigit).isEmpty then
    Except.error VersionError.invalidVersionFormat
  else
    Except.ok (String.mk (joinWith ['_']
      ((comps.filter py_isdigit).map pad_component)))

/-- Counterexample to claim C8: on the input a.2, whose first dot component
is non-numeric, the claim demands an InvalidVersionFormat failure, but the
source function version_to_dname succeeds and returns the token 02 built
from the remaining numeric component. -/
theorem version_to_dname_never_fails_cex :
    versionToToken_spec "a.2"
      = Except.error VersionError.invalidVersionFormat ∧
    version_to_dname "a.2" = "02" :=
  ⟨rfl, rfl⟩

/-- Claim C8 as amended: version_to_dname never fails.  It keeps exactly the
numeric dot components, silently discarding the rest, so on any dotted input
it returns the underscore-join of the zero-padded numeric components: the
padded join of all components when every component is numeric, and the empty
string when no numeric component remains. -/
theorem version_to_dname_filters (L : List (List Char))
    (hd : ∀ c ∈ L, ('.' : Char) ∉ c) :
    version_to_dname (String.mk (joinWith ['.'] L))
      = String.mk (joinWith ['_'] ((L.filter py_isdigit).map pad_component)) := by
  rcases L with _ | ⟨x, t⟩
  · rfl
  · rw [version_to_dname, data_mk,
      splitOnChar_joinWith '.' (x :: t) (by simp) hd]

/-- Witness for version_to_dname_filters at the input a.2. -/
theorem version_to_dname_filters_witness :
    version_to_dname (String.mk (joinWith ['.'] [['a'], ['2']]))
      = String.mk (joinWith ['_']
          (([['a'], ['2']].filter py_isdigit).map pad_component)) :=
  version_to_dname_filters [['a'], ['2']] (by decide)

/-! ## Claim C9 -/

/-- Claim C9: for every dotted version string assembled from one- or
two-digit numeric components with no leading zero in the two-digit case,
converting to a directory token and back returns the original string; in
particular 1.2.3 maps to 01_02_03 and 01_02_03 maps back to 1.2.3. -/
theorem round_trip_version (L : List (List Char)) (hL : L ≠ [])
    (h : ∀ c ∈ L, roundTripSafe c = true) :
    dname_to_version (version_to_dname (String.mk (joinWith ['.'] L)))
      = String.mk (joinWith ['.'] L) ∧
    version_to_dname "1.2.3" = "01_02_03" ∧
    dname_to_version "01_02_03" = "1.2.3" := by
  refine ⟨?_, by decide, by decide⟩
  have hdot : ∀ c ∈ L, ('.' : Char) ∉ c := fun c hc =>
    not_mem_of_py_isdigit c (roundTripSafe_isdigit c (h c hc)) '.' (by decide)
  have hP : ∀ p ∈ L.map pad_component, py_isdigit p = true := by
    intro p hp
    obtain ⟨c, hc, rfl⟩ := List.mem_map.mp hp
    exact pad_component_isdigit c (roundTripSafe_isdigit c (h c hc))
  have hund : ∀ p ∈ L.map pad_component, ('_' : Char) ∉ p := fun p hp =>
    not_mem_of_py_isdigit p (hP p hp) '_' (by decide)
  have hPne : L.map pad_component ≠ [] := by
    rcases L with _ | ⟨x, t⟩
    · exact absurd rfl hL
    · simp
  rw [version_to_dname, data_mk, splitOnChar_joinWith '.' L hL hdot,
    List.filter_eq_self.mpr (fun c hc => roundTripSafe_isdigit c (h c hc)),
    dname_to_version, data_mk,
    splitOnChar_joinWith '_' (L.map pad_component) hPne hund,
    List.filter_eq_self.mpr hP, List.map_map]
  have hmap : ∀ M : List (List Char), (∀ c ∈ M, roundTripSafe c = true) →
      M.map ((fun c => py_str_nat (py_int c)) ∘ pad_component) = M := by
    intro M hM
    induction M with
    | nil => rfl
    | cons x t ih =>
      simp only [List.map_cons, Function.comp_apply]
      rw [round_trip_component x (hM x (by simp)),
        ih (fun c hc => hM c (List.mem_cons_of_mem _ hc))]
  rw [hmap L h]

/-- Witness for round_trip_version at the version string 1.2.3. -/
theorem round_trip_version_witness :
    dname_to_version (version_to_dname
        (String.mk (joinWith ['.'] [['1'], ['2'], ['3']])))
      = String.mk (joinWith ['.'] [['1'], ['2'], ['3']]) :=
  (round_trip_version [['1'], ['2'], ['3']] (by decide) (by decide)).1

/-! ## Embedding of the manager file operations -/

/-- A file of the concrete filesystem model used by the manager operations:
its containing directory, its base name, and what reading its first line
returns. -/
structure RFile where
  dir : String
  name : String
  firstLine : String
deriving DecidableEq

/-- The concrete filesystem state the manager operations mutate: the files,
in listing order within each directory, and the existing directories. -/
structure MgrFs where
  files : List RFile
  dirs : List String
deriving DecidableEq

/-- utilites.listdir_replays_only over the concrete model: the files of a
directory whose names end in .roa, in listing order. -/
def listdir_replays_only_m (files : List RFile) (path : String) : List RFile :=
  files.filter (fun f => f.dir == path && py_endswith f.name ".roa")

/-- Python slicing between offsets a and b on a character list. -/
def pySlice (cs : List Char) (a b : Nat) : List Char :=
  (cs.drop a).take (b - a)

/-- ReplayFile.get_version: reads the first line of the replay file and
formats the three two-character slices at offsets 1, 3 and 5 into an
underscore-joined token, but in the default simple=False case returns the
whole first line rather than the token it computed, exactly as
replaymanager.py line 77 returns line and not version. -/
def get_version (f : RFile) (simple : Bool) : String :=
  let line := f.firstLine
  let version := String.mk
    (pySlice line.data 1 3 ++ '_' :: pySlice line.data 3 5
      ++ '_' :: pySlice line.data 5 7)
  if simple then dname_to_version version else line

/-- utilites.ensure_directory_exists over the concrete model. -/
def ensure_directory_exists (fs : MgrFs) (path : String) : MgrFs :=
  if fs.dirs.contains path then fs else { fs with dirs := path :: fs.dirs }

/-- os.rename of one file into a new directory under a new name. -/
def rename_file (fs : MgrFs) (src : RFile) (newDir newName : String) : MgrFs :=
  { fs with files := fs.files.map (fun g =>
      if g == src then { g with dir := newDir, name := newName } else g) }

/-- ReplayManager.make_collections: snapshot the .roa files of the replays
folder, and for each one in turn read its game version with get_version,
ensure a destination subdirectory of that name exists, and move the file
into it under its own name. -/
def make_collections (replays_path destination_root_path : String)
    (fs : MgrFs) : MgrFs :=
  (listdir_replays_only_m fs.files replays_path).foldl
    (fun acc f =>
      let game_version := get_version f false
      let collection_path := pathJoin destination_root_path game_version
      let acc2 := ensure_directory_exists acc collection_path
      rename_file acc2 f collection_path f.name)
    fs

/-- The Python exceptions the embedded manager operations can raise. -/
inductive PyError where
  | attributeError (msg : String)
  | fileNotFoundError (path : String)
deriving DecidableEq

/-- The manager state threaded through load_next_replay: the path
configuration, the loaded collection, and the concrete filesystem. -/
structure MgrState where
  cfg : ReplayManagerCfg
  coll : ReplayCollection
  fs : MgrFs
deriving DecidableEq

/-- ReplayManager.__flush_replays__: delete every .roa file of the replays
folder. -/
def flush_replays (st : MgrState) : MgrState :=
  { st with fs := { st.fs with files := st.fs.files.filter (fun f =>
      !(f.dir == st.cfg.replays_path && py_endswith f.name ".roa")) } }

/-- shutil.copy of the file at srcPath into the directory dstDir, keeping
the base name and overwriting any file of the same name already there;
raises FileNotFoundError when no file has that path. -/
def shutil_copy (fs : MgrFs) (srcPath dstDir : String) :
    Except PyError MgrFs :=
  match fs.files.find? (fun f => pathJoin f.dir f.name == srcPath) with
  | none => Except.error (PyError.fileNotFoundError srcPath)
  | some f =>
    Except.ok { fs with files :=
      (fs.files.filter (fun g => !(g.dir == dstDir && g.name == f.name)))
        ++ [{ f with dir := dstDir }] }

/-- The attribute names class ReplayFile defines, replaymanager.py lines 13
to 124.  No set_destination_paths is among them, so calling it raises
AttributeError. -/
def replayFileMethods : List String :=
  ["name", "path", "frames_path", "labels_path",
   "set_frames_path", "set_labels_path", "get_version",
   "save_frame_and_labels", "save_frame", "save_labels"]

/-- ReplayManager.load_next_replay, replaymanager.py lines 311 to 348,
returning the state as mutated up to any raise next to the result.  The
skip_deletions parameter is accepted but never consulted by the source: the
flush at the top of the method body runs unconditionally.  When
pop_unvisited returns None, evaluating replay.path raises AttributeError.
Otherwise the replay is copied into the replays folder and the call of
replay.set_destination_paths, an attribute class ReplayFile does not
define, raises AttributeError before the destination directories are
created. -/
def load_next_replay (st : MgrState) (skip_deletions : Bool) :
    MgrState × Except PyError ReplayFile :=
  let st1 := flush_replays st
  match pop_unvisited st1.coll with
  | (none, _) =>
    (st1, Except.error (PyError.attributeError
      "NoneType object has no attribute path"))
  | (some replay, coll1) =>
    let st2 := { st1 with coll := coll1 }
    match shutil_copy st2.fs replay.path st2.cfg.replays_path with
    | Except.error e => (st2, Except.error e)
    | Except.ok fs1 =>
      let st3 := { st2 with fs := fs1 }
      let replay_frames_path := pathJoin st3.cfg.frames_root_path replay.name
      let replay_labels_path := pathJoin st3.cfg.labels_root_path replay.name
      if replayFileMethods.contains "set_destination_paths" then
        let fs2 := ensure_directory_exists st3.fs replay_frames_path
        let fs3 := ensure_directory_exists fs2 replay_labels_path
        ({ st3 with fs := fs3 }, Except.ok replay)
      else
        (st3, Except.error (PyError.attributeError
          "ReplayFile object has no attribute set_destination_paths"))

/-! ## Claim C1 -/

/-- Fixture for claim C1: one replay file in the replays folder whose first
header line is x010400body, so its header version fields are 01, 04 and
00. -/
def c1_fs : MgrFs :=
  { files := [⟨"replays", "match01.roa", "x010400body"⟩]
    dirs := [] }

/-- Claim C1 as the source refutes it: the header of match01.roa yields the
dotted version 1.4.0, whose zero-padded underscore token is 01_04_00, yet
make_collections moves the file into the destination subdirectory named by
the entire first header line, because get_version in its default form
returns the raw line instead of the token it computed.  The replays folder
is indeed left without replay files, but the file lands in
dest/x010400body, not in dest/01_04_00. -/
theorem make_collections_uses_raw_header_line :
    get_version ⟨"replays", "match01.roa", "x010400body"⟩ true = "1.4.0" ∧
    version_to_dname "1.4.0" = "01_04_00" ∧
    (make_collections "replays" "dest" c1_fs).files
      = [⟨"dest/x010400body", "match01.roa", "x010400body"⟩] ∧
    (make_collections "replays" "dest" c1_fs).dirs = ["dest/x010400body"] ∧
    listdir_replays_only_m (make_collections "replays" "dest" c1_fs).files
      "replays" = [] ∧
    ("dest/x010400body" : String) ≠ pathJoin "dest" "01_04_00" := by
  refine ⟨rfl, rfl, by decide, by decide, by decide, by decide⟩

/-! ## Claim C2 -/

/-- Claim C2 as the source refutes it: with a nonempty unvisited
subsequence and the popped record present on disk, load_next_replay does
not return the record with its destination directories assigned and
created; the call of replay.set_destination_paths, an attribute class
ReplayFile does not define, raises AttributeError, and no directory is
created. -/
theorem load_next_replay_missing_method (st : MgrState) (b : Bool)
    (r : ReplayFile) (rest : List ReplayFile) (f : RFile)
    (h : st.coll.replays_unvisited = r :: rest)
    (hf : (flush_replays st).fs.files.find?
      (fun g => pathJoin g.dir g.name == r.path) = some f) :
    (load_next_replay st b).2 = Except.error (PyError.attributeError
      "ReplayFile object has no attribute set_destination_paths") ∧
    (load_next_replay st b).1.fs.dirs = st.fs.dirs := by
  have hpop : pop_unvisited (flush_replays st).coll
      = (some r, { st.coll with replays_unvisited := rest }) := by
    show pop_unvisited st.coll = _
    simp [pop_unvisited, h]
  have hct : replayFileMethods.contains "set_destination_paths" = false := rfl
  simp only [load_next_replay, hpop, shutil_copy, hf, hct]
  exact ⟨rfl, rfl⟩

/-- Fixture state for the witness of load_next_replay_missing_method. -/
def c2_state : MgrState :=
  { cfg := ReplayManager.init "replays" (some "dest")
    coll := { frames_root_path := "dest/frames"
              labels_root_path := "dest/frames"
              replays := [⟨"a.roa", "coll/a.roa"⟩]
              replays_unvisited := [⟨"a.roa", "coll/a.roa"⟩] }
    fs := { files := [{ dir := "coll", name := "a.roa", firstLine := "x010400" }]
            dirs := [] } }

/-- Witness for load_next_replay_missing_method at a concrete state. -/
theorem load_next_replay_missing_method_witness :
    (load_next_replay c2_state false).2 = Except.error (PyError.attributeError
      "ReplayFile object has no attribute set_destination_paths") ∧
    (load_next_replay c2_state false).1.fs.dirs = c2_state.fs.dirs :=
  load_next_replay_missing_method c2_state false ⟨"a.roa", "coll/a.roa"⟩ []
    { dir := "coll", name := "a.roa", firstLine := "x010400" } rfl rfl

/-! ## Claim C6 -/

/-- Claim C6 as the source refutes it: with an empty unvisited subsequence,
load_next_replay does not fail with a designated NoUnvisitedReplays
condition; pop_unvisited returns None, the replays folder has already been
flushed, and dereferencing None then raises a plain AttributeError. -/
theorem load_next_replay_empty_attribute_error (st : MgrState) (b : Bool)
    (h : st.coll.replays_unvisited = []) :
    load_next_replay st b = (flush_replays st,
      Except.error (PyError.attributeError
        "NoneType object has no attribute path")) := by
  have hpop : pop_unvisited (flush_replays st).coll = (none, st.coll) := by
    show pop_unvisited st.coll = _
    simp [pop_unvisited, h]
  simp only [load_next_replay, hpop]

/-- Fixture state for the witness of load_next_replay_empty_attribute_error. -/
def c6_state : MgrState :=
  { cfg := ReplayManager.init "replays" (some "dest")
    coll := { frames_root_path := "dest/frames"
              labels_root_path := "dest/frames"
              replays := []
              replays_unvisited := [] }
    fs := { files := [{ dir := "replays", name := "old.roa", firstLine := "x" }]
            dirs := [] } }

/-- Witness for load_next_replay_empty_attribute_error at a concrete
state. -/
theorem load_next_replay_empty_attribute_error_witness :
    load_next_replay c6_state false = (flush_replays c6_state,
      Except.error (PyError.attributeError
        "NoneType object has no attribute path")) :=
  load_next_replay_empty_attribute_error c6_state false rfl

/-! ## Claim C7 -/

/-- Fixture for claim C7: the live replays folder holds one replay file and
the loaded collection has nothing left to visit. -/
def c7_state : MgrState :=
  { cfg := ReplayManager.init "replays" (some "dest")
    coll := { frames_root_path := "dest/frames"
              labels_root_path := "dest/frames"
              replays := []
              replays_unvisited := [] }
    fs := { files := [{ dir := "replays", name := "live.roa", firstLine := "x" }]
            dirs := [] } }

/-- Claim C7 as the source refutes it: load_next_replay never consults
skip_deletions — a call with the flag set behaves identically to a call
without it — and concretely a replay file present in the live folder is
deleted by the unconditional flush even when skip_deletions is true. -/
theorem load_next_replay_ignores_skip_deletions :
    (∀ st b1 b2, load_next_replay st b1 = load_next_replay st b2) ∧
    c7_state.fs.files ≠ [] ∧
    (load_next_replay c7_state true).1.fs.files = [] := by
  refine ⟨fun st b1 b2 => rfl, by decide, by decide⟩

end RoaMgr
